import Mathlib

/-!
Shallow embedding of the SFaucet ranking engine (`search.js`) and feature
visualizer (`visualizer.js`).  JavaScript strings are modelled as lists of
characters, JavaScript numbers as rationals (exact arithmetic), with real
numbers appearing only where the source takes square roots.  JavaScript
`x || d` coercion on numbers is modelled by an explicit falsy-default
function, and the stable `Array.prototype.sort` mandated by the ECMAScript
specification is modelled by `List.mergeSort`.
-/

namespace SFaucet

/-! ### JS string primitives -/

/-- Whitespace test used by `trim` and the `/\s+/` split. -/
def isWs (c : Char) : Bool := decide (c = ' ') || decide (c = '\t') || decide (c = '\n') || decide (c = '\r')

/-- `String.prototype.trim`: strip leading and trailing whitespace. -/
def trimStr (s : List Char) : List Char :=
  ((s.dropWhile isWs).reverse.dropWhile isWs).reverse

/-- `String.prototype.toLowerCase`. -/
def lowerStr (s : List Char) : List Char := s.map Char.toLower

/-- `String.prototype.startsWith`. -/
def startsWithStr : List Char → List Char → Bool
  | _, [] => true
  | [], _ :: _ => false
  | c :: cs, d :: ds => decide (c = d) && startsWithStr cs ds

/-- `String.prototype.includes`: substring containment. -/
def containsStr : List Char → List Char → Bool
  | [], needle => startsWithStr [] needle
  | c :: cs, needle => startsWithStr (c :: cs) needle || containsStr cs needle

/-- `split(/\s+/)` on an already-trimmed string: the maximal runs of
non-whitespace characters. -/
def wordsOf (s : List Char) : List (List Char) :=
  (s.foldr
    (fun c acc =>
      if isWs c then [] :: acc
      else
        match acc with
        | [] => [[c]]
        | w :: ws => (c :: w) :: ws)
    []).filter (fun w => !w.isEmpty)

/-! ### Data model (`data.js` output consumed by `search.js`) -/

/-- A track record as consumed by the ranking engine.  The five feature
fields used for slider matching are optional (`undefined` access yields the
code's `|| 0` default); `tempo` is the raw BPM used for display. -/
structure Track where
  trackName : List Char
  artistNames : List Char
  albumName : List Char
  danceability : Option ℚ
  energy : Option ℚ
  valence : Option ℚ
  tempoNorm : Option ℚ
  acousticness : Option ℚ
  tempo : ℚ
deriving DecidableEq

/-- The five comparable feature dimensions, in the fixed order of
`FEATURE_KEYS` in the source. -/
inductive FeatKey
  | danceability
  | energy
  | valence
  | tempoNorm
  | acousticness
deriving DecidableEq, Fintype

/-- `FEATURE_KEYS` from the source, in source order. -/
def FEATURE_KEYS : List FeatKey :=
  [.danceability, .energy, .valence, .tempoNorm, .acousticness]

/-- Field lookup `track[key]` for the five feature keys. -/
def Track.val (t : Track) : FeatKey → Option ℚ
  | .danceability => t.danceability
  | .energy => t.energy
  | .valence => t.valence
  | .tempoNorm => t.tempoNorm
  | .acousticness => t.acousticness

/-- The slider set: each slider is a number or `null`. -/
structure Sliders where
  danceability : Option ℚ
  energy : Option ℚ
  valence : Option ℚ
  tempo : Option ℚ
  acousticness : Option ℚ
deriving DecidableEq

/-- `Object.values(sliders).some(v => v !== null)`. -/
def Sliders.anyNonNull (s : Sliders) : Bool :=
  s.danceability.isSome || s.energy.isSome || s.valence.isSome ||
    s.tempo.isSome || s.acousticness.isSome

/-- `Math.max(0, Math.min(1, x))`. -/
def clamp01 (x : ℚ) : ℚ := max 0 (min 1 x)

/-- The `normalizedSliders` object built in `search`: the four unit-range
sliders are copied verbatim (still possibly `null`), tempo is normalized to
`[0,1]`.  A `null` tempo behaves as `0` in JS arithmetic. -/
structure SliderTarget where
  danceability : Option ℚ
  energy : Option ℚ
  valence : Option ℚ
  tempoNorm : ℚ
  acousticness : Option ℚ
deriving DecidableEq

/-- Construction of `normalizedSliders` from the raw slider set. -/
def normalizeSliders (s : Sliders) : SliderTarget :=
  { danceability := s.danceability
    energy := s.energy
    valence := s.valence
    tempoNorm := clamp01 ((s.tempo.getD 0 - 40) / 180)
    acousticness := s.acousticness }

/-- The documented UI ranges of the four unit-range sliders (the tempo
slider needs no assumption: its normalization is clamped). -/
def slidersInRange (s : Sliders) : Prop :=
  (∀ q, s.danceability = some q → 0 ≤ q ∧ q ≤ 1) ∧
  (∀ q, s.energy = some q → 0 ≤ q ∧ q ≤ 1) ∧
  (∀ q, s.valence = some q → 0 ≤ q ∧ q ≤ 1) ∧
  (∀ q, s.acousticness = some q → 0 ≤ q ∧ q ≤ 1)

/-- Lookup `normalizedSliders[key] || 0` resolved to a number. -/
def SliderTarget.val (st : SliderTarget) : FeatKey → ℚ
  | .danceability => st.danceability.getD 0
  | .energy => st.energy.getD 0
  | .valence => st.valence.getD 0
  | .tempoNorm => st.tempoNorm
  | .acousticness => st.acousticness.getD 0

/-! ### Text scoring (`computeTextScore`) -/

/-- `computeTextScore(track, queryLower)` from the source: additive bonuses
for name/artist/album matches plus a multi-word bonus, clamped at 1. -/
def computeTextScore (track : Track) (queryLower : List Char) : ℚ :=
  let name := lowerStr track.trackName
  let artist := lowerStr track.artistNames
  let album := lowerStr track.albumName
  let score1 : ℚ :=
    if name = queryLower then 1
    else if startsWithStr name queryLower then 0.8
    else if containsStr name queryLower then 0.6
    else 0
  let score2 : ℚ := score1 +
    (if artist = queryLower then 0.9
     else if containsStr artist queryLower then 0.5
     else 0)
  let score3 : ℚ := score2 + (if containsStr album queryLower then 0.2 else 0)
  let words := wordsOf queryLower
  let score4 : ℚ :=
    if 1 < words.length then
      score3 +
        ((words.filter (fun w => containsStr name w || containsStr artist w)).length : ℚ) /
          (words.length : ℚ) * 0.3
    else score3
  min score4 1

/-- Modelled from the claim text: the additive text-scoring scheme the
specification describes, written independently of the source.  Exact
case-insensitive name match gives `1.0`, else starts-with `0.8`, else
contains `0.6`; exact artist match `0.9`, else contains `0.5`; album
contains `0.2`; for a multi-word query an extra
`(matchedWordCount/wordCount)*0.3`; the sum is clamped at `1`. -/
def specTextScore (t : Track) (query : List Char) : ℚ :=
  let q := lowerStr (trimStr query)
  let nameBonus : ℚ :=
    if lowerStr t.trackName = q then 1
    else if startsWithStr (lowerStr t.trackName) q then 0.8
    else if containsStr (lowerStr t.trackName) q then 0.6
    else 0
  let artistBonus : ℚ :=
    if lowerStr t.artistNames = q then 0.9
    else if containsStr (lowerStr t.artistNames) q then 0.5
    else 0
  let albumBonus : ℚ := if containsStr (lowerStr t.albumName) q then 0.2 else 0
  let ws := wordsOf q
  let wordBonus : ℚ :=
    if 1 < ws.length then
      ((ws.filter
          (fun w => containsStr (lowerStr t.trackName) w ||
            containsStr (lowerStr t.artistNames) w)).length : ℚ) /
        (ws.length : ℚ) * 0.3
    else 0
  min (nameBonus + artistBonus + albumBonus + wordBonus) 1

/-! ### Feature scoring (`euclideanDistance` and the feature score) -/

/-- The sum of squared per-dimension differences accumulated by the loop in
`euclideanDistance`, with `|| 0` defaults on both sides. -/
def distSq (t : Track) (target : SliderTarget) : ℚ :=
  FEATURE_KEYS.foldl
    (fun sum k =>
      sum + ((t.val k).getD 0 - target.val k) * ((t.val k).getD 0 - target.val k))
    0

/-- `euclideanDistance(track, target)`: the square root of `distSq`. -/
noncomputable def euclideanDistance (t : Track) (target : SliderTarget) : ℝ :=
  Real.sqrt ((distSq t target : ℚ) : ℝ)

/-- The feature score assigned in `search`: the distance normalized by the
maximum possible distance `√(FEATURE_KEYS.length)` and inverted.  (The
source first writes `1 - dist` and immediately overwrites it with this
value, so only this value is observable.) -/
noncomputable def featureScore (t : Track) (target : SliderTarget) : ℝ :=
  1 - euclideanDistance t target / Real.sqrt ((FEATURE_KEYS.length : ℕ) : ℝ)

/-! ### Reason strings -/

/-- `Math.round`: round half toward positive infinity. -/
def jsRound (q : ℚ) : ℤ := ⌊q + 1 / 2⌋

/-- `Number.prototype.toFixed(0)` on a rational: round half away from
zero. -/
def toFixed0 (q : ℚ) : ℤ := if 0 ≤ q then ⌊q + 1 / 2⌋ else -⌊-q + 1 / 2⌋

/-- `Number.prototype.toFixed(0)` on a real score. -/
noncomputable def toFixed0Real (x : ℝ) : ℤ := if 0 ≤ x then ⌊x + 1 / 2⌋ else -⌊-x + 1 / 2⌋

/-- Conventional rounding `round(x)` as used by the specification text. -/
noncomputable def specRound (x : ℝ) : ℤ := ⌊x + 1 / 2⌋

/-- `buildTextReason(track, query)`: name checked first, then artists,
otherwise a partial-match fallback. -/
def buildTextReason (track : Track) (query : List Char) : String :=
  if containsStr (lowerStr track.trackName) (lowerStr query) then
    "Matched your search \"" ++ String.mk query ++ "\" in the track name"
  else if containsStr (lowerStr track.artistNames) (lowerStr query) then
    "Found \"" ++ String.mk query ++ "\" among the artists"
  else
    "Partial match for \"" ++ String.mk query ++ "\""

/-- One entry of the `diffs` array in `buildSliderReason`. -/
structure DiffEntry where
  key : FeatKey
  diff : ℚ
  trackVal : ℚ
  targetVal : ℚ
deriving DecidableEq

/-- One entry of the `diffs` array for key `k`. -/
def mkDiffEntry (t : Track) (ns : SliderTarget) (k : FeatKey) : DiffEntry :=
  { key := k
    diff := |(t.val k).getD 0 - ns.val k|
    trackVal := (t.val k).getD 0
    targetVal := ns.val k }

/-- The `diffs` array: one entry per feature key, in `FEATURE_KEYS` order. -/
def diffEntries (t : Track) (ns : SliderTarget) : List DiffEntry :=
  FEATURE_KEYS.map (mkDiffEntry t ns)

/-- The position of a feature key in the fixed `FEATURE_KEYS` order. -/
def keyIdx : FeatKey → ℕ
  | .danceability => 0
  | .energy => 1
  | .valence => 2
  | .tempoNorm => 3
  | .acousticness => 4

/-- The comparator `(a, b) => a.diff - b.diff` as a boolean order. -/
def diffLE (a b : DiffEntry) : Bool := decide (a.diff ≤ b.diff)

/-- The raw key string of a feature dimension. -/
def keyName : FeatKey → String
  | .danceability => "Danceability"
  | .energy => "Energy"
  | .valence => "Valence"
  | .tempoNorm => "tempoNorm"
  | .acousticness => "Acousticness"

/-- The message `buildSliderReason` assembles for a chosen best entry:
tempo displayed in BPM, every other dimension as a percentage. -/
def sliderMsgFor (t : Track) (e : DiffEntry) : String :=
  let displayName := if e.key = .tempoNorm then "Tempo" else keyName e.key
  let trackDisplay :=
    if e.key = .tempoNorm then toString (jsRound t.tempo) ++ " BPM"
    else toString (toFixed0 (e.trackVal * 100)) ++ "%"
  "Closest on " ++ displayName ++ " (" ++ trackDisplay ++
    ") — strong alignment with your slider settings"

/-- Junk entry used only to give `diffs[0]` a total meaning; the `diffs`
array always has five entries, so it is never selected. -/
def dfltEntry : DiffEntry := { key := .danceability, diff := 0, trackVal := 0, targetVal := 0 }

/-- `buildSliderReason(track, normalizedSliders, rawSliders)`: stable-sort
the diffs ascending and report on `diffs[0]`.  (The `rawSliders` argument
is unused in the source body and is omitted here.) -/
def buildSliderReason (t : Track) (ns : SliderTarget) : String :=
  sliderMsgFor t (((diffEntries t ns).mergeSort diffLE).headD dfltEntry)

/-! ### The search pipeline -/

/-- A scored result: track reference, combined score, reason strings. -/
structure Result where
  track : Track
  score : ℝ
  reasons : List String

/-- The `params` object: query text plus optional slider set. -/
structure Params where
  query : List Char
  sliders : Option Sliders
deriving DecidableEq

/-- `hasQuery`: the trimmed query is non-empty. -/
def Params.hasQuery (p : Params) : Bool := decide (0 < (trimStr p.query).length)

/-- `hasSliders`: a slider object is present and some slider is not null. -/
def Params.hasSliders (p : Params) : Bool :=
  match p.sliders with
  | none => false
  | some s => s.anyNonNull

/-- The `textScore` local of the `tracks.map` callback: zero unless text
is active. -/
def textScoreOf (p : Params) (t : Track) : ℚ :=
  if p.hasQuery then computeTextScore t (lowerStr (trimStr p.query)) else 0

/-- The `featureScore` local of the `tracks.map` callback: zero unless
`normalizedSliders` was built. -/
noncomputable def featScoreOf (p : Params) (t : Track) : ℝ :=
  match p.sliders with
  | some s => if s.anyNonNull then featureScore t (normalizeSliders s) else 0
  | none => 0

/-- The combined `score` local: weighted blend when both signals are
active, otherwise the single active score. -/
noncomputable def combinedScore (p : Params) (t : Track) : ℝ :=
  if p.hasQuery && p.hasSliders then
    (textScoreOf p t : ℝ) * 0.55 + featScoreOf p t * 0.45
  else if p.hasQuery then (textScoreOf p t : ℝ)
  else featScoreOf p t

/-- The `reasons` array pushed for one track. -/
def reasonsOf (p : Params) (t : Track) : List String :=
  (if p.hasQuery && decide (0 < textScoreOf p t) then [buildTextReason t (trimStr p.query)]
   else []) ++
    (match p.sliders with
     | some s => if s.anyNonNull then [buildSliderReason t (normalizeSliders s)] else []
     | none => [])

/-- The body of the `tracks.map` callback in `search`: text score, feature
score, combined score and reasons for one track. -/
noncomputable def scoreTrack (p : Params) (t : Track) : Result :=
  { track := t, score := combinedScore p t, reasons := reasonsOf p t }

/-- The descending-score comparator used by the stable sort. -/
noncomputable def byScoreDesc (a b : Result) : Bool := decide (b.score ≤ a.score)

/-- `filtered`: when text is active, drop zero-score results. -/
noncomputable def searchFiltered (tracks : List Track) (p : Params) : List Result :=
  let scored := tracks.map (scoreTrack p)
  if p.hasQuery then scored.filter (fun s => decide (0 < s.score)) else scored

/-- The stable descending sort of the filtered results. -/
noncomputable def searchSorted (tracks : List Track) (p : Params) : List Result :=
  (searchFiltered tracks p).mergeSort byScoreDesc

/-- `Array.prototype.slice(0, e)` with a possibly negative end index. -/
def jsSliceTo {α : Type} (l : List α) (e : ℤ) : List α :=
  if 0 ≤ e then l.take e.toNat else l.take (l.length - (-e).toNat)

/-- `search(tracks, params, limit)`: empty on no active signal, otherwise
score, filter, stable-sort descending and slice to `limit`. -/
noncomputable def search (tracks : List Track) (p : Params) (limit : ℤ) : List Result :=
  if !p.hasQuery && !p.hasSliders then []
  else jsSliceTo (searchSorted tracks p) limit

/-- The percentage printed by `buildExplanation`. -/
noncomputable def explanationPercent (r : Result) : ℤ := toFixed0Real (r.score * 100)

/-- `buildExplanation(result, params)`: a lead-in with the percentage score
followed by the joined reasons. -/
noncomputable def buildExplanation (r : Result) : String :=
  "Match confidence: " ++ toString (explanationPercent r) ++ "%. " ++
    String.intercalate ". " r.reasons ++ "."

end SFaucet

namespace Viz

/-! ### Visualizer (`visualizer.js`)

Feature values reaching `setTrack` may be missing, `NaN`, or out of range,
so they are modelled by an explicit JS-value type.  `Math.random()` draws
are modelled as explicit inputs, making particle creation deterministic
given the supplied draw sequence. -/

/-- A JavaScript numeric field value: a finite number, `NaN`, or absent. -/
inductive JSVal
  | num (q : ℚ)
  | nan
  | undef
deriving DecidableEq

/-- `v || d` on a JS numeric value: `NaN`, `undefined` and `0` are falsy
and yield the default; every other number passes through unchanged. -/
def jsOr : JSVal → ℚ → ℚ
  | .num q, d => if q = 0 then d else q
  | .nan, d => d
  | .undef, d => d

/-- `q || d` on a number already resolved to a rational. -/
def qOr (q d : ℚ) : ℚ := if q = 0 then d else q

/-- A track record as consumed by `setTrack` (only the eight feature
fields it reads). -/
structure VizTrack where
  valence : JSVal
  energy : JSVal
  danceability : JSVal
  tempoNorm : JSVal
  loudnessNorm : JSVal
  acousticness : JSVal
  liveness : JSVal
  instrumentalness : JSVal
deriving DecidableEq

/-- The eight derived feature slots of the visualizer state. -/
inductive FeatId
  | valence
  | energy
  | danceability
  | tempo
  | loudness
  | acousticness
  | liveness
  | instrumentalness
deriving DecidableEq

/-- A feature record (`this.features` / `this.targetFeatures`). -/
def Features := FeatId → ℚ

/-- Track field read by `setTrack` for each feature slot. -/
def VizTrack.field (t : VizTrack) : FeatId → JSVal
  | .valence => t.valence
  | .energy => t.energy
  | .danceability => t.danceability
  | .tempo => t.tempoNorm
  | .loudness => t.loudnessNorm
  | .acousticness => t.acousticness
  | .liveness => t.liveness
  | .instrumentalness => t.instrumentalness

/-- The `targetFeatures` object built by `setTrack`: each field defaulted
through `|| 0`. -/
def setTrackTarget (t : VizTrack) : Features := fun k => jsOr (t.field k) 0

/-- The eight `Math.random()` draws consumed by one `createParticle`
call, each in `[0,1)`. -/
structure Rand8 where
  rx : ℚ
  ry : ℚ
  rvx : ℚ
  rvy : ℚ
  rs : ℚ
  rl : ℚ
  rp : ℚ
  ro : ℚ
deriving DecidableEq

/-- A particle.  `phase` is real because the source multiplies a draw by
`2π`; all claim-relevant fields are rational. -/
structure Particle where
  x : ℚ
  y : ℚ
  vx : ℚ
  vy : ℚ
  size : ℚ
  life : ℚ
  phase : ℝ
  organic : Bool

/-- `createParticle()` evaluated against feature record `f` (the source
reads `this.targetFeatures || this.features || \x7b\x7d`, which is the
fresh target at every call site) with the eight draws supplied. -/
noncomputable def createParticle (w h : ℚ) (f : Features) (r : Rand8) : Particle :=
  { x := r.rx * w
    y := r.ry * h
    vx := (r.rvx - 0.5) * 2
    vy := (r.rvy - 0.5) * 2
    size := 1.5 + r.rs * 3 * (0.5 + qOr (f .loudness) 0.5)
    life := r.rl
    phase := (r.rp : ℝ) * Real.pi * 2
    organic := decide (r.ro < qOr (f .acousticness) 0.3) }

/-- `initParticles()`: a wholly fresh particle list of
`floor(80 + (danceability || 0) * 180)` particles built from `f`. -/
noncomputable def initParticles (w h : ℚ) (f : Features) (draws : ℕ → Rand8) : List Particle :=
  let count := (Int.floor ((80 : ℚ) + qOr (f .danceability) 0 * 180)).toNat
  (List.range count).map fun i => createParticle w h f (draws i)

/-- The visualizer state relevant to the claims: the animated `features`,
the instantly-set `targetFeatures` (both `null` before the first
`setTrack`), and the particle list. -/
structure VizState where
  features : Option Features
  targetFeatures : Option Features
  particles : List Particle

/-- The freshly constructed visualizer: no features, no particles. -/
def VizState.init : VizState :=
  { features := none, targetFeatures := none, particles := [] }

/-- `setTrack(track)`: replace the target, seed `features` from it only on
first initialization, and regenerate the particle set from the new
target. -/
noncomputable def setTrack (w h : ℚ) (t : VizTrack) (draws : ℕ → Rand8) (st : VizState) :
    VizState :=
  let target := setTrackTarget t
  { targetFeatures := some target
    features :=
      match st.features with
      | none => some target
      | some f => some f
    particles := initParticles w h target draws }

/-- `lerpFeatures()`: one tick of blending `features` toward
`targetFeatures` by 3% of the remaining gap; a no-op before the first
`setTrack`. -/
def lerpFeatures (st : VizState) : VizState :=
  match st.targetFeatures, st.features with
  | some tgt, some f =>
      { st with features := some fun k => f k + (tgt k - f k) * 0.03 }
  | some _, none => st
  | none, _ => st

/-- The closed form of the animated value after `n` ticks, starting at `a`
and chasing `b`. -/
def lerpN (a b : ℚ) (n : ℕ) : ℚ := b + (a - b) * (97 / 100) ^ n

/-- The shared pulse `sin(time * pulseFreq) * 0.5 + 0.5` of one tick. -/
noncomputable def pulse (f : Features) (time : ℝ) : ℝ :=
  Real.sin (time * (0.5 + (f .tempo : ℝ) * 4)) * 0.5 + 0.5

/-- The size a particle is drawn at on one tick. -/
noncomputable def drawnSize (f : Features) (time : ℝ) (p : Particle) : ℝ :=
  (p.size : ℝ) * (0.8 + pulse f time * 0.4 * (f .danceability : ℝ))

/-- The wobble added to an organic particle's ellipse radii. -/
noncomputable def wobble (f : Features) (time : ℝ) (p : Particle) : ℝ :=
  Real.sin (time * 2 + p.phase) * drawnSize f time p * 0.2 * (f .acousticness : ℝ)

/-- The x-radius handed to `ctx.ellipse` for an organic particle; the
canvas call is invalid (raises) when this is negative. -/
noncomputable def ellipseRadiusX (f : Features) (time : ℝ) (p : Particle) : ℝ :=
  drawnSize f time p + wobble f time p

/-- The shape drawn for a particle on a tick with current features `f`. -/
inductive Shape
  | organicEllipse
  | diamond
  | roundRect
deriving DecidableEq

/-- The drawing branch of `animate()`: organic particles get the wobbling
ellipse; geometric ones a diamond when the current `instrumentalness`
exceeds `0.3`, else a rounded rectangle. -/
def renderShape (f : Features) (p : Particle) : Shape :=
  if p.organic then .organicEllipse
  else if 3 / 10 < f .instrumentalness then .diamond
  else .roundRect

/-- All-zero feature record, used only as a `getD` default. -/
def dfltF : Features := fun _ => 0

/-- Junk particle used only as a `getD` default. -/
def dfltParticle : Particle :=
  { x := 0, y := 0, vx := 0, vy := 0, size := 0, life := 0, phase := 0, organic := false }

end Viz

namespace Inputs

/-! ### Concrete inputs used by witnesses and counterexamples -/

open SFaucet Viz

/-- A plain track whose name is "ab". -/
def tAB : Track :=
  { trackName := ['a', 'b'], artistNames := [], albumName := []
    danceability := none, energy := none, valence := none
    tempoNorm := none, acousticness := none, tempo := 120 }

/-- A plain track whose name is "abx". -/
def tABX : Track :=
  { trackName := ['a', 'b', 'x'], artistNames := [], albumName := []
    danceability := none, energy := none, valence := none
    tempoNorm := none, acousticness := none, tempo := 120 }

/-- Text-only search params with query "ab". -/
def pAB : Params := { query := ['a', 'b'], sliders := none }

/-- A track named "z" with every feature field absent and tempo 0. -/
def tZero : Track :=
  { trackName := ['z'], artistNames := [], albumName := []
    danceability := none, energy := none, valence := none
    tempoNorm := none, acousticness := none, tempo := 0 }

/-- A slider set whose danceability slider is far outside the documented
`[0,1]` range. -/
def sBig : Sliders :=
  { danceability := some 3, energy := none, valence := none
    tempo := none, acousticness := none }

/-- Slider-only params carrying `sBig`. -/
def pBig : Params := { query := [], sliders := some sBig }

/-- Junk result used only as a `headD` default. -/
noncomputable def dfltResult : Result := { track := tZero, score := 0, reasons := [] }

/-- A track named "alpha" with no artist and no album. -/
def tAlpha : Track :=
  { trackName := ['a', 'l', 'p', 'h', 'a'], artistNames := [], albumName := []
    danceability := none, energy := none, valence := none
    tempoNorm := none, acousticness := none, tempo := 100 }

/-- The two-word query "alpha gamma": only its first word matches
`tAlpha`. -/
def qAlphaGamma : List Char :=
  ['a', 'l', 'p', 'h', 'a', ' ', 'g', 'a', 'm', 'm', 'a']

/-- A visualizer track whose normalized loudness is the out-of-range
number `-5` (truthy in JS, so `|| 0` keeps it); all other features 0. -/
def vLoudTrack : VizTrack :=
  { valence := .num 0, energy := .num 0, danceability := .num 0
    tempoNorm := .num 0, loudnessNorm := .num (-5), acousticness := .num 0
    liveness := .num 0, instrumentalness := .num 0 }

/-- A visualizer track whose every feature field is `NaN`. -/
def nanTrack : VizTrack :=
  { valence := .nan, energy := .nan, danceability := .nan
    tempoNorm := .nan, loudnessNorm := .nan, acousticness := .nan
    liveness := .nan, instrumentalness := .nan }

/-- A visualizer track whose every feature field is absent. -/
def undefTrack : VizTrack :=
  { valence := .undef, energy := .undef, danceability := .undef
    tempoNorm := .undef, loudnessNorm := .undef, acousticness := .undef
    liveness := .undef, instrumentalness := .undef }

/-- A visualizer track whose every feature value is one half. -/
def vHalf : VizTrack :=
  { valence := .num (1 / 2), energy := .num (1 / 2), danceability := .num (1 / 2)
    tempoNorm := .num (1 / 2), loudnessNorm := .num (1 / 2), acousticness := .num (1 / 2)
    liveness := .num (1 / 2), instrumentalness := .num (1 / 2) }

/-- A constant draw sequence: size draw 0.9, organic draw 0.1. -/
def cexDraws : ℕ → Rand8 := fun _ =>
  { rx := 0, ry := 0, rvx := 0, rvy := 0, rs := 9 / 10, rl := 0, rp := 0, ro := 1 / 10 }

end Inputs

section Theorems

open SFaucet Viz Inputs

/-- C1: for every track and every non-empty trimmed query, the text score
computed by search (`computeTextScore` applied to the lowercased trimmed
query, exactly as `search` applies it) equals the additive scheme the
specification gives — name exact/starts-with/contains bonuses, artist
exact/contains bonuses, album contains bonus, the multi-word bonus
`(matchedWordCount/wordCount)*0.3` — clamped at 1. -/
theorem textScore_matches_spec (t : Track) (q : List Char)
    (h : trimStr q ≠ []) :
    computeTextScore t (lowerStr (trimStr q)) = specTextScore t q := by
  simp only [computeTextScore, specTextScore]
  by_cases hw : 1 < (wordsOf (lowerStr (trimStr q))).length
  · rw [if_pos hw, if_pos hw]
  · rw [if_neg hw, if_neg hw, add_zero]

/-- Witness for C1 at a concrete track and query. -/
theorem textScore_matches_spec_witness :
    trimStr ['a', 'b'] ≠ [] ∧
      computeTextScore tAB (lowerStr (trimStr ['a', 'b'])) = specTextScore tAB ['a', 'b'] :=
  ⟨by decide, textScore_matches_spec tAB ['a', 'b'] (by decide)⟩

/-- C2: for every slider set with at least one non-null slider, the feature
score equals `1 - d/√5` with `d` the Euclidean distance over the five
feature dimensions (missing values on either side defaulting to 0); it is
exactly 1 when the normalized slider targets equal the track's values, and
it is strictly decreasing in that Euclidean distance. -/
theorem featureScore_matches_spec (s : Sliders) (h : s.anyNonNull = true) :
    (∀ t : Track, featureScore t (normalizeSliders s) =
        1 - euclideanDistance t (normalizeSliders s) / Real.sqrt 5) ∧
    (∀ t : Track,
      (∀ k ∈ FEATURE_KEYS, (t.val k).getD 0 = (normalizeSliders s).val k) →
        featureScore t (normalizeSliders s) = 1) ∧
    (∀ t₁ t₂ : Track,
      euclideanDistance t₁ (normalizeSliders s) < euclideanDistance t₂ (normalizeSliders s) →
        featureScore t₂ (normalizeSliders s) < featureScore t₁ (normalizeSliders s)) := by
  refine ⟨?_, ?_, ?_⟩
  · intro t
    have h5 : ((FEATURE_KEYS.length : ℕ) : ℝ) = 5 := by norm_num [FEATURE_KEYS]
    rw [featureScore, h5]
  · intro t ht
    have h1 := ht .danceability (by simp [FEATURE_KEYS])
    have h2 := ht .energy (by simp [FEATURE_KEYS])
    have h3 := ht .valence (by simp [FEATURE_KEYS])
    have h4 := ht .tempoNorm (by simp [FEATURE_KEYS])
    have h5 := ht .acousticness (by simp [FEATURE_KEYS])
    have hd : distSq t (normalizeSliders s) = 0 := by
      simp [distSq, FEATURE_KEYS, h1, h2, h3, h4, h5]
    rw [featureScore, euclideanDistance, hd]
    norm_num
  · intro t₁ t₂ hlt
    have hpos : (0 : ℝ) < Real.sqrt ((FEATURE_KEYS.length : ℕ) : ℝ) := by
      apply Real.sqrt_pos.mpr
      norm_num [FEATURE_KEYS]
    rw [featureScore, featureScore]
    have hdiv := (div_lt_div_iff_of_pos_right hpos).mpr hlt
    linarith

/-- Witness for C2 at a concrete slider set. -/
theorem featureScore_matches_spec_witness :
    Sliders.anyNonNull
        { danceability := some (1 / 2), energy := none, valence := none,
          tempo := none, acousticness := none } = true ∧
      (∀ t : Track,
        featureScore t
            (normalizeSliders
              { danceability := some (1 / 2), energy := none, valence := none,
                tempo := none, acousticness := none }) =
          1 -
            euclideanDistance t
                (normalizeSliders
                  { danceability := some (1 / 2), energy := none, valence := none,
                    tempo := none, acousticness := none }) /
              Real.sqrt 5) :=
  ⟨by decide,
    (featureScore_matches_spec
        { danceability := some (1 / 2), energy := none, valence := none,
          tempo := none, acousticness := none } (by decide)).1⟩

/-- The descending-score comparator is transitive. -/
lemma byScoreDesc_trans : ∀ a b c : Result, byScoreDesc a b → byScoreDesc b c → byScoreDesc a c := by
  intro a b c hab hbc
  simp only [byScoreDesc, decide_eq_true_eq] at hab hbc ⊢
  exact le_trans hbc hab

/-- The descending-score comparator is total. -/
lemma byScoreDesc_total : ∀ a b : Result, byScoreDesc a b || byScoreDesc b a := by
  intro a b
  simp only [byScoreDesc, Bool.or_eq_true, decide_eq_true_eq]
  exact le_total b.score a.score

/-- A JS slice from index 0 is a sublist of the list. -/
lemma jsSliceTo_sublist {α : Type} (l : List α) (e : ℤ) : (jsSliceTo l e).Sublist l := by
  unfold jsSliceTo
  split <;> exact List.take_sublist _ _

/-- With at least one active signal, `search` is the slice of the sorted
filtered results. -/
lemma search_eq_slice (tracks : List Track) (p : Params) (limit : ℤ)
    (hsig : p.hasQuery = true ∨ p.hasSliders = true) :
    search tracks p limit = jsSliceTo (searchSorted tracks p) limit := by
  unfold search
  rcases hsig with h | h <;> simp [h]

/-- C3: with at least one active signal and a positive limit, the result
list of `search` is sorted non-increasing by combined score; two results of
equal score keep their relative library order (the sort is stable: a
score-tied pair in library order stays in that order in the sorted list,
of which the output is the `limit`-prefix); and at most `limit` results
are returned. -/
theorem search_sorted_stable_limit (tracks : List Track) (p : Params) (limit : ℤ)
    (hsig : p.hasQuery = true ∨ p.hasSliders = true) (hlim : 0 < limit) :
    ((search tracks p limit).Pairwise fun a b => b.score ≤ a.score) ∧
    (∀ t₁ t₂ : Track, [t₁, t₂].Sublist tracks →
      (scoreTrack p t₁).score = (scoreTrack p t₂).score →
      (p.hasQuery = true → 0 < (scoreTrack p t₁).score) →
      (p.hasQuery = true → 0 < (scoreTrack p t₂).score) →
      [scoreTrack p t₁, scoreTrack p t₂].Sublist (searchSorted tracks p)) ∧
    search tracks p limit = (searchSorted tracks p).take limit.toNat ∧
    ((search tracks p limit).length : ℤ) ≤ limit := by
  have htake : search tracks p limit = (searchSorted tracks p).take limit.toNat := by
    rw [search_eq_slice tracks p limit hsig]
    unfold jsSliceTo
    rw [if_pos (le_of_lt hlim)]
  refine ⟨?_, ?_, htake, ?_⟩
  · have hs := List.sorted_mergeSort
      byScoreDesc_trans byScoreDesc_total (searchFiltered tracks p)
    have hs' : (searchSorted tracks p).Pairwise fun a b => b.score ≤ a.score := by
      refine List.Pairwise.imp ?_ hs
      intro a b hab
      simpa [byScoreDesc] using hab
    rw [htake]
    exact hs'.sublist (List.take_sublist _ _)
  · intro t₁ t₂ hlib heq hk1 hk2
    have hpairle : [scoreTrack p t₁, scoreTrack p t₂].Pairwise fun a b => byScoreDesc a b := by
      simp [byScoreDesc, heq]
    have hmap : [scoreTrack p t₁, scoreTrack p t₂].Sublist (tracks.map (scoreTrack p)) := by
      simpa using hlib.map (scoreTrack p)
    have hfil : [scoreTrack p t₁, scoreTrack p t₂].Sublist (searchFiltered tracks p) := by
      unfold searchFiltered
      by_cases hq : p.hasQuery = true
      · rw [if_pos hq]
        have h1 : decide (0 < (scoreTrack p t₁).score) = true := decide_eq_true (hk1 hq)
        have h2 : decide (0 < (scoreTrack p t₂).score) = true := decide_eq_true (hk2 hq)
        have hsub := hmap.filter (fun s => decide (0 < s.score))
        simpa [List.filter_cons, h1, h2] using hsub
      · rw [if_neg hq]
        exact hmap
    exact List.sublist_mergeSort
      byScoreDesc_trans byScoreDesc_total hpairle hfil
  · rw [htake]
    have hlen : ((searchSorted tracks p).take limit.toNat).length ≤ limit.toNat := by
      simp [List.length_take]
    calc (((searchSorted tracks p).take limit.toNat).length : ℤ)
        ≤ (limit.toNat : ℤ) := by exact_mod_cast hlen
      _ = limit := Int.toNat_of_nonneg (le_of_lt hlim)

/-- Witness for C3 at a concrete library, query and limit. -/
theorem search_sorted_stable_limit_witness :
    (Params.hasQuery pAB = true ∨ Params.hasSliders pAB = true) ∧ (0 : ℤ) < 1 ∧
      ((search [tAB] pAB 1).Pairwise fun a b => b.score ≤ a.score) :=
  ⟨Or.inl (by decide), by decide,
    (search_sorted_stable_limit [tAB] pAB 1 (Or.inl (by decide)) (by decide)).1⟩

/-- Every member of a search result list arises as `scoreTrack` of a
library track, and survived the filter. -/
lemma exists_of_mem_search {tracks : List Track} {p : Params} {limit : ℤ} {r : Result}
    (hr : r ∈ search tracks p limit) :
    r ∈ searchFiltered tracks p ∧ ∃ t ∈ tracks, r = scoreTrack p t := by
  unfold search at hr
  by_cases hc : (!p.hasQuery && !p.hasSliders) = true
  · rw [if_pos hc] at hr
    simp at hr
  · rw [if_neg hc] at hr
    have hr' : r ∈ searchSorted tracks p := (jsSliceTo_sublist _ _).subset hr
    have hrf : r ∈ searchFiltered tracks p := by
      unfold searchSorted at hr'
      exact List.mem_mergeSort.mp hr'
    refine ⟨hrf, ?_⟩
    have hrs : r ∈ tracks.map (scoreTrack p) := by
      unfold searchFiltered at hrf
      by_cases hq : p.hasQuery = true
      · rw [if_pos hq] at hrf
        exact List.mem_of_mem_filter hrf
      · rw [if_neg hq] at hrf
        exact hrf
    obtain ⟨t, ht, hrt⟩ := List.mem_map.mp hrs
    exact ⟨t, ht, hrt.symm⟩

/-- C10: with at least one active signal and a positive limit, every result
returned by `search` carries a nonempty reasons list: active sliders always
attach a slider reason, and in a text-only search every surviving result
has positive text score and therefore a text reason. -/
theorem search_reasons_nonempty (tracks : List Track) (p : Params) (limit : ℤ)
    (hsig : p.hasQuery = true ∨ p.hasSliders = true) (hlim : 0 < limit)
    (r : Result) (hr : r ∈ search tracks p limit) : r.reasons ≠ [] := by
  obtain ⟨hrf, t, ht, rfl⟩ := exists_of_mem_search hr
  by_cases hsl : p.hasSliders = true
  · rcases hps : p.sliders with _ | s
    · rw [Params.hasSliders, hps] at hsl
      exact absurd hsl (by simp)
    · have hann : s.anyNonNull = true := by
        rw [Params.hasSliders, hps] at hsl
        exact hsl
      simp [scoreTrack, reasonsOf, hps, hann]
  · have hq : p.hasQuery = true := hsig.resolve_right hsl
    have hslf : p.hasSliders = false := by
      simpa using hsl
    unfold searchFiltered at hrf
    rw [if_pos hq] at hrf
    have hscore : 0 < (scoreTrack p t).score := by
      have := List.of_mem_filter hrf
      simpa using this
    have hcast : (scoreTrack p t).score =
        ((computeTextScore t (lowerStr (trimStr p.query)) : ℚ) : ℝ) := by
      simp [scoreTrack, combinedScore, textScoreOf, hq, hslf]
    have htpos : 0 < computeTextScore t (lowerStr (trimStr p.query)) := by
      rw [hcast] at hscore
      exact_mod_cast hscore
    rcases hps : p.sliders with _ | s
    · simp [scoreTrack, reasonsOf, textScoreOf, hq, hps, htpos]
    · have hann : s.anyNonNull = false := by
        rw [Params.hasSliders, hps] at hslf
        exact hslf
      simp [scoreTrack, reasonsOf, textScoreOf, hq, hps, hann, htpos]

/-- Witness for C10 at a concrete library, query and limit. -/
theorem search_reasons_nonempty_witness :
    (Params.hasQuery pAB = true ∨ Params.hasSliders pAB = true) ∧ (0 : ℤ) < 1 ∧
      (∀ r ∈ search [tAB] pAB 1, r.reasons ≠ []) :=
  ⟨Or.inl (by decide), by decide, fun r hr =>
    search_reasons_nonempty [tAB] pAB 1 (Or.inl (by decide)) (by decide) r hr⟩

/-- The text score is never negative. -/
lemma computeTextScore_nonneg (t : Track) (q : List Char) : 0 ≤ computeTextScore t q := by
  unfold computeTextScore
  refine le_min ?_ (by norm_num)
  split_ifs <;> positivity

/-- The text score is clamped at 1. -/
lemma computeTextScore_le_one (t : Track) (q : List Char) : computeTextScore t q ≤ 1 :=
  min_le_right _ _

/-- When every per-dimension difference is bounded by 1, the squared
distance is at most 5. -/
lemma distSq_le_five (t : Track) (st : SliderTarget)
    (ht : ∀ k ∈ FEATURE_KEYS, 0 ≤ (t.val k).getD 0 ∧ (t.val k).getD 0 ≤ 1)
    (hs : ∀ k ∈ FEATURE_KEYS, 0 ≤ st.val k ∧ st.val k ≤ 1) :
    distSq t st ≤ 5 := by
  have sq_le : ∀ a b : ℚ, 0 ≤ a → a ≤ 1 → 0 ≤ b → b ≤ 1 → (a - b) * (a - b) ≤ 1 := by
    intro a b h1 h2 h3 h4
    nlinarith
  have e1 := sq_le _ _ (ht .danceability (by simp [FEATURE_KEYS])).1
    (ht .danceability (by simp [FEATURE_KEYS])).2
    (hs .danceability (by simp [FEATURE_KEYS])).1 (hs .danceability (by simp [FEATURE_KEYS])).2
  have e2 := sq_le _ _ (ht .energy (by simp [FEATURE_KEYS])).1
    (ht .energy (by simp [FEATURE_KEYS])).2
    (hs .energy (by simp [FEATURE_KEYS])).1 (hs .energy (by simp [FEATURE_KEYS])).2
  have e3 := sq_le _ _ (ht .valence (by simp [FEATURE_KEYS])).1
    (ht .valence (by simp [FEATURE_KEYS])).2
    (hs .valence (by simp [FEATURE_KEYS])).1 (hs .valence (by simp [FEATURE_KEYS])).2
  have e4 := sq_le _ _ (ht .tempoNorm (by simp [FEATURE_KEYS])).1
    (ht .tempoNorm (by simp [FEATURE_KEYS])).2
    (hs .tempoNorm (by simp [FEATURE_KEYS])).1 (hs .tempoNorm (by simp [FEATURE_KEYS])).2
  have e5 := sq_le _ _ (ht .acousticness (by simp [FEATURE_KEYS])).1
    (ht .acousticness (by simp [FEATURE_KEYS])).2
    (hs .acousticness (by simp [FEATURE_KEYS])).1 (hs .acousticness (by simp [FEATURE_KEYS])).2
  simp only [distSq, FEATURE_KEYS, List.foldl]
  linarith

/-- A bounded squared distance keeps the feature score inside `[0,1]`. -/
lemma featureScore_mem_unit (t : Track) (st : SliderTarget)
    (hsq : distSq t st ≤ 5) : 0 ≤ featureScore t st ∧ featureScore t st ≤ 1 := by
  have h0 : (0 : ℝ) ≤ euclideanDistance t st := Real.sqrt_nonneg _
  have hle : euclideanDistance t st ≤ Real.sqrt 5 := by
    apply Real.sqrt_le_sqrt
    exact_mod_cast hsq
  have h5 : Real.sqrt ((FEATURE_KEYS.length : ℕ) : ℝ) = Real.sqrt 5 := by
    norm_num [FEATURE_KEYS]
  have hpos : (0 : ℝ) < Real.sqrt 5 := Real.sqrt_pos.mpr (by norm_num)
  constructor
  · unfold featureScore
    rw [h5]
    have hq1 : euclideanDistance t st / Real.sqrt 5 ≤ 1 := (div_le_one hpos).mpr hle
    linarith
  · unfold featureScore
    rw [h5]
    have hq0 : 0 ≤ euclideanDistance t st / Real.sqrt 5 := div_nonneg h0 (le_of_lt hpos)
    linarith

/-- In-range sliders give an in-range normalized target. -/
lemma normalizeSliders_mem_unit (s : Sliders) (hs : slidersInRange s) :
    ∀ k ∈ FEATURE_KEYS, 0 ≤ (normalizeSliders s).val k ∧ (normalizeSliders s).val k ≤ 1 := by
  obtain ⟨h1, h2, h3, h4⟩ := hs
  intro k _
  cases k with
  | danceability =>
      simp only [normalizeSliders, SliderTarget.val]
      rcases hd : s.danceability with _ | q
      · simp
      · simpa using h1 q hd
  | energy =>
      simp only [normalizeSliders, SliderTarget.val]
      rcases hd : s.energy with _ | q
      · simp
      · simpa using h2 q hd
  | valence =>
      simp only [normalizeSliders, SliderTarget.val]
      rcases hd : s.valence with _ | q
      · simp
      · simpa using h3 q hd
  | tempoNorm =>
      simp only [normalizeSliders, SliderTarget.val, clamp01]
      constructor
      · exact le_max_left 0 _
      · exact max_le (by norm_num) (min_le_left 1 _)
  | acousticness =>
      simp only [normalizeSliders, SliderTarget.val]
      rcases hd : s.acousticness with _ | q
      · simp
      · simpa using h4 q hd

/-- The combined score of one track lies in `[0,1]` when the track features
and sliders are in range. -/
lemma scoreTrack_mem_unit (p : Params) (t : Track)
    (ht : ∀ k ∈ FEATURE_KEYS, 0 ≤ (t.val k).getD 0 ∧ (t.val k).getD 0 ≤ 1)
    (hsl : ∀ s, p.sliders = some s → slidersInRange s) :
    0 ≤ (scoreTrack p t).score ∧ (scoreTrack p t).score ≤ 1 := by
  have htx0 : (0 : ℚ) ≤ textScoreOf p t := by
    unfold textScoreOf
    split_ifs
    · exact computeTextScore_nonneg t _
    · exact le_refl 0
  have htx1 : textScoreOf p t ≤ 1 := by
    unfold textScoreOf
    split_ifs
    · exact computeTextScore_le_one t _
    · norm_num
  have hfx : 0 ≤ featScoreOf p t ∧ featScoreOf p t ≤ 1 := by
    rcases hps : p.sliders with _ | s
    · have he : featScoreOf p t = 0 := by
        unfold featScoreOf
        rw [hps]
      rw [he]
      norm_num
    · have he : featScoreOf p t =
          if s.anyNonNull then featureScore t (normalizeSliders s) else 0 := by
        unfold featScoreOf
        rw [hps]
      rw [he]
      split_ifs with hann
      · exact featureScore_mem_unit t _
          (distSq_le_five t _ ht (normalizeSliders_mem_unit s (hsl s hps)))
      · norm_num
  have hc0 : (0 : ℝ) ≤ ((textScoreOf p t : ℚ) : ℝ) := by exact_mod_cast htx0
  have hc1 : ((textScoreOf p t : ℚ) : ℝ) ≤ 1 := by exact_mod_cast htx1
  show 0 ≤ combinedScore p t ∧ combinedScore p t ≤ 1
  unfold combinedScore
  split_ifs
  · exact ⟨by nlinarith [hfx.1, hfx.2], by nlinarith [hfx.1, hfx.2]⟩
  · exact ⟨hc0, hc1⟩
  · exact hfx

/-- C4 (amended): when every track feature field lies in its normalized
range and the slider values lie in their documented ranges, every result
returned by `search` has a score in `[0,1]` inclusive, and the percentage
stated by `buildExplanation` equals `round(score*100)`. -/
theorem search_score_in_unit_interval (tracks : List Track) (p : Params) (limit : ℤ)
    (htr : ∀ t ∈ tracks, ∀ k ∈ FEATURE_KEYS, 0 ≤ (t.val k).getD 0 ∧ (t.val k).getD 0 ≤ 1)
    (hsl : ∀ s, p.sliders = some s → slidersInRange s)
    (r : Result) (hr : r ∈ search tracks p limit) :
    0 ≤ r.score ∧ r.score ≤ 1 ∧ explanationPercent r = specRound (r.score * 100) := by
  obtain ⟨-, t, ht, rfl⟩ := exists_of_mem_search hr
  obtain ⟨h0, h1⟩ := scoreTrack_mem_unit p t (htr t ht) hsl
  refine ⟨h0, h1, ?_⟩
  unfold explanationPercent toFixed0Real specRound
  rw [if_pos (by nlinarith : (0 : ℝ) ≤ (scoreTrack p t).score * 100)]

/-- Witness for C4 at a concrete in-range library and query. -/
theorem search_score_in_unit_interval_witness :
    (∀ t ∈ [tAB], ∀ k ∈ FEATURE_KEYS, 0 ≤ (t.val k).getD 0 ∧ (t.val k).getD 0 ≤ 1) ∧
      (∀ s, pAB.sliders = some s → slidersInRange s) ∧
      ∀ r ∈ search [tAB] pAB 1,
        0 ≤ r.score ∧ r.score ≤ 1 ∧ explanationPercent r = specRound (r.score * 100) :=
  ⟨by decide, fun s hs => by simp [pAB] at hs, fun r hr =>
    search_score_in_unit_interval [tAB] pAB 1 (by decide)
      (fun s hs => by simp [pAB] at hs) r hr⟩

/-- C4 counterexample: with a slider value outside its documented range
(danceability slider at 3) the engine returns a result whose score is
negative, refuting the `[0,1]` bound over every query as stated. -/
theorem search_score_out_of_range_cex :
    ((search [tZero] pBig 5).headD dfltResult).score < 0 := by
  have hfil : searchFiltered [tZero] pBig = [scoreTrack pBig tZero] := by
    unfold searchFiltered
    rw [if_neg (by decide : ¬(Params.hasQuery pBig = true))]
    rfl
  have hout : search [tZero] pBig 5 = [scoreTrack pBig tZero] := by
    rw [search_eq_slice [tZero] pBig 5 (Or.inr (by decide))]
    unfold searchSorted
    rw [hfil, List.mergeSort_singleton]
    rfl
  rw [hout]
  show (scoreTrack pBig tZero).score < 0
  have hsc : (scoreTrack pBig tZero).score = featureScore tZero (normalizeSliders sBig) := by
    show combinedScore pBig tZero = _
    unfold combinedScore
    rw [if_neg (by decide : ¬((Params.hasQuery pBig && Params.hasSliders pBig) = true)),
      if_neg (by decide : ¬(Params.hasQuery pBig = true))]
    show (if sBig.anyNonNull then featureScore tZero (normalizeSliders sBig) else 0) = _
    rw [if_pos (by decide : sBig.anyNonNull = true)]
  rw [hsc]
  have hd : distSq tZero (normalizeSliders sBig) = 9 := by
    norm_num [distSq, FEATURE_KEYS, Track.val, SliderTarget.val, normalizeSliders, tZero,
      sBig, clamp01]
  have hsqrt : euclideanDistance tZero (normalizeSliders sBig) = 3 := by
    rw [euclideanDistance, hd]
    rw [show (((9 : ℚ)) : ℝ) = (3 : ℝ) ^ 2 by norm_num]
    exact Real.sqrt_sq (by norm_num)
  rw [featureScore, hsqrt]
  rw [show ((FEATURE_KEYS.length : ℕ) : ℝ) = 5 by norm_num [FEATURE_KEYS]]
  have h9 : Real.sqrt 9 = 3 := by
    rw [show (9 : ℝ) = 3 ^ 2 by norm_num]
    exact Real.sqrt_sq (by norm_num)
  have hlt : Real.sqrt 5 < 3 := by
    have hss := Real.sqrt_lt_sqrt (by norm_num : (0 : ℝ) ≤ 5) (by norm_num : (5 : ℝ) < 9)
    rwa [h9] at hss
  have hpos : (0 : ℝ) < Real.sqrt 5 := Real.sqrt_pos.mpr (by norm_num)
  have hgt : (1 : ℝ) < 3 / Real.sqrt 5 := (one_lt_div hpos).mpr hlt
  linarith

/-- C6 counterexample: calling `search` with the non-positive limit `-1`
is not rejected: it returns an ordinary (here even nonempty) result list,
following the JS `slice(0, -1)` semantics of dropping the last sorted
result.  No `InvalidArgument` condition exists anywhere in the engine. -/
theorem search_negative_limit_cex :
    search [tAB, tABX] pAB (-1) = [scoreTrack pAB tAB] := by
  have ht1 : textScoreOf pAB tAB = 1 := by
    norm_num +decide [textScoreOf, computeTextScore]
  have ht2 : textScoreOf pAB tABX = 0.8 := by
    norm_num +decide [textScoreOf, computeTextScore]
  have hs1 : (scoreTrack pAB tAB).score = ((1 : ℚ) : ℝ) := by
    show combinedScore pAB tAB = _
    unfold combinedScore
    rw [if_neg (by decide : ¬((Params.hasQuery pAB && Params.hasSliders pAB) = true)),
      if_pos (by decide : Params.hasQuery pAB = true), ht1]
  have hs2 : (scoreTrack pAB tABX).score = ((0.8 : ℚ) : ℝ) := by
    show combinedScore pAB tABX = _
    unfold combinedScore
    rw [if_neg (by decide : ¬((Params.hasQuery pAB && Params.hasSliders pAB) = true)),
      if_pos (by decide : Params.hasQuery pAB = true), ht2]
  have hfil : searchFiltered [tAB, tABX] pAB =
      [scoreTrack pAB tAB, scoreTrack pAB tABX] := by
    unfold searchFiltered
    rw [if_pos (by decide : Params.hasQuery pAB = true)]
    have hkeep : List.filter (fun s => decide (0 < s.score))
        (List.map (scoreTrack pAB) [tAB, tABX]) =
        List.map (scoreTrack pAB) [tAB, tABX] := by
      apply List.filter_eq_self.mpr
      intro a ha
      simp only [List.map_cons, List.map_nil, List.mem_cons, List.not_mem_nil,
        or_false] at ha
      rcases ha with rfl | rfl
      · rw [hs1]
        exact decide_eq_true (by norm_num)
      · rw [hs2]
        exact decide_eq_true (by norm_num)
    rw [hkeep]
    rfl
  have hsort : searchSorted [tAB, tABX] pAB =
      [scoreTrack pAB tAB, scoreTrack pAB tABX] := by
    unfold searchSorted
    rw [hfil]
    apply List.mergeSort_of_sorted
    refine List.Pairwise.cons ?_ (List.pairwise_singleton _ _)
    intro b hb
    simp only [List.mem_singleton] at hb
    subst hb
    show byScoreDesc (scoreTrack pAB tAB) (scoreTrack pAB tABX) = true
    unfold byScoreDesc
    rw [hs1, hs2]
    exact decide_eq_true (by norm_num)
  rw [search_eq_slice _ _ _ (Or.inl (by decide)), hsort]
  unfold jsSliceTo
  rw [if_neg (by norm_num : ¬(0 : ℤ) ≤ -1)]
  rfl

/-- C6 (amended): `search` performs no limit validation and signals no
error condition: limit 0 yields the empty list, and a negative limit is fed
to `slice(0, limit)`, returning all but the last `|limit|` of the sorted
results. -/
theorem search_nonpositive_limit (tracks : List Track) (p : Params) (limit : ℤ)
    (hsig : p.hasQuery = true ∨ p.hasSliders = true) (hlim : limit < 0) :
    search tracks p 0 = [] ∧
    search tracks p limit =
      (searchSorted tracks p).take ((searchSorted tracks p).length - (-limit).toNat) ∧
    ((search tracks p limit).length : ℤ) =
      max 0 (((searchSorted tracks p).length : ℤ) + limit) := by
  have h0 : search tracks p 0 = [] := by
    rw [search_eq_slice tracks p 0 hsig]
    unfold jsSliceTo
    rw [if_pos (le_refl (0 : ℤ))]
    rfl
  have heq : search tracks p limit =
      (searchSorted tracks p).take ((searchSorted tracks p).length - (-limit).toNat) := by
    rw [search_eq_slice tracks p limit hsig]
    unfold jsSliceTo
    rw [if_neg (by omega : ¬(0 : ℤ) ≤ limit)]
  refine ⟨h0, heq, ?_⟩
  rw [heq, List.length_take]
  omega

/-- Witness for the amended C6 at a concrete library and limits. -/
theorem search_nonpositive_limit_witness :
    (Params.hasQuery pAB = true ∨ Params.hasSliders pAB = true) ∧ (-1 : ℤ) < 0 ∧
      search [tAB] pAB 0 = [] :=
  ⟨Or.inl (by decide), by decide,
    (search_nonpositive_limit [tAB] pAB (-1) (Or.inl (by decide)) (by decide)).1⟩

/-- The ascending-diff comparator is transitive. -/
lemma diffLE_trans : ∀ a b c : DiffEntry, diffLE a b → diffLE b c → diffLE a c := by
  intro a b c hab hbc
  simp only [diffLE, decide_eq_true_eq] at hab hbc ⊢
  exact le_trans hab hbc

/-- The ascending-diff comparator is total. -/
lemma diffLE_total : ∀ a b : DiffEntry, diffLE a b || diffLE b a := by
  intro a b
  simp only [diffLE, Bool.or_eq_true, decide_eq_true_eq]
  exact le_total a.diff b.diff

/-- Each diff entry records its own key. -/
lemma mkDiffEntry_key (t : Track) (ns : SliderTarget) (k : FeatKey) :
    (mkDiffEntry t ns k).key = k := rfl

/-- A member of the diffs array is determined by its key. -/
lemma eq_mkDiffEntry_of_mem {t : Track} {ns : SliderTarget} {e : DiffEntry}
    (he : e ∈ diffEntries t ns) : e = mkDiffEntry t ns e.key := by
  obtain ⟨k, -, rfl⟩ := List.mem_map.mp he
  rw [mkDiffEntry_key]

/-- The diffs array has no duplicate entries. -/
lemma diffEntries_nodup (t : Track) (ns : SliderTarget) : (diffEntries t ns).Nodup := by
  have hkeys : (diffEntries t ns).map DiffEntry.key = FEATURE_KEYS := rfl
  apply List.Nodup.of_map DiffEntry.key
  rw [hkeys]
  decide

/-- Keys in index order occur as a pair-sublist of `FEATURE_KEYS`. -/
lemma pair_sublist_keys : ∀ k1 k2 : FeatKey, keyIdx k1 < keyIdx k2 →
    [k1, k2].Sublist FEATURE_KEYS := by decide

/-- The head of the stable ascending sort of a duplicate-free list is a
minimum, and no distinct tied element occurs before it in the input. -/
lemma head_mergeSort_min_stable (l : List DiffEntry) (x : DiffEntry) (xs : List DiffEntry)
    (hl : l.mergeSort diffLE = x :: xs) (hnd : l.Nodup) :
    x ∈ l ∧ (∀ y ∈ l, x.diff ≤ y.diff) ∧
      ∀ y ∈ l, y ≠ x → y.diff = x.diff → ¬[y, x].Sublist l := by
  have hxl : x ∈ l := by
    have hx : x ∈ l.mergeSort diffLE := by
      rw [hl]
      exact List.mem_cons_self x xs
    exact List.mem_mergeSort.mp hx
  have hsorted := List.sorted_mergeSort diffLE_trans diffLE_total l
  rw [hl] at hsorted
  have hnds : (x :: xs).Nodup := by
    rw [← hl]
    exact ((List.mergeSort_perm l diffLE).nodup_iff).mpr hnd
  refine ⟨hxl, ?_, ?_⟩
  · intro y hy
    have hyms : y ∈ x :: xs := by
      rw [← hl]
      exact List.mem_mergeSort.mpr hy
    rcases List.mem_cons.mp hyms with rfl | hyxs
    · exact le_refl _
    · have := (List.pairwise_cons.mp hsorted).1 y hyxs
      simpa [diffLE] using this
  · intro y hy hne heq hsub
    have hpair : [y, x].Pairwise fun a b => diffLE a b := by
      simp [diffLE, heq]
    have hsub2 : [y, x].Sublist (x :: xs) := by
      rw [← hl]
      exact List.sublist_mergeSort diffLE_trans diffLE_total hpair hsub
    have hxxs : x ∈ xs := by
      cases hsub2 with
      | cons _ h => exact h.subset (by simp)
      | cons₂ _ h => exact absurd rfl hne
    exact (List.nodup_cons.mp hnds).1 hxxs

/-- `buildSliderReason` reports on the entry with the smallest absolute
difference, ties broken by the fixed `FEATURE_KEYS` order. -/
lemma buildSliderReason_spec (t : Track) (ns : SliderTarget) :
    ∃ e ∈ diffEntries t ns,
      (∀ e2 ∈ diffEntries t ns, e.diff ≤ e2.diff) ∧
      (∀ e2 ∈ diffEntries t ns, e2.diff = e.diff → keyIdx e.key ≤ keyIdx e2.key) ∧
      buildSliderReason t ns = sliderMsgFor t e := by
  have hne : (diffEntries t ns).mergeSort diffLE ≠ [] := by
    intro hnil
    have hlen : ((diffEntries t ns).mergeSort diffLE).length = 5 := by
      rw [List.length_mergeSort]
      rfl
    rw [hnil] at hlen
    simp at hlen
  obtain ⟨x, xs, hl⟩ := List.exists_cons_of_ne_nil hne
  obtain ⟨hmem, hmin, hstab⟩ :=
    head_mergeSort_min_stable _ x xs hl (diffEntries_nodup t ns)
  refine ⟨x, hmem, hmin, ?_, ?_⟩
  · intro e2 he2 heq
    by_contra hgt
    push_neg at hgt
    have hne2 : e2 ≠ x := by
      intro hcontra
      rw [hcontra] at hgt
      exact lt_irrefl _ hgt
    have hkeysub : [e2.key, x.key].Sublist FEATURE_KEYS := pair_sublist_keys _ _ hgt
    have hmapsub := hkeysub.map (mkDiffEntry t ns)
    have hsub : [e2, x].Sublist (diffEntries t ns) := by
      rw [eq_mkDiffEntry_of_mem he2, eq_mkDiffEntry_of_mem hmem]
      simpa [diffEntries] using hmapsub
    exact hstab e2 he2 hne2 heq hsub
  · unfold buildSliderReason
    rw [hl]
    rfl

/-- C5 counterexample: a multi-word query that matches neither name nor
artists as a whole still yields a positive text score, and the generated
reason is the partial-match fallback, naming neither the track name nor
the artists — refuting the claim as stated. -/
theorem textReason_partial_cex :
    0 < computeTextScore tAlpha (lowerStr (trimStr qAlphaGamma)) ∧
    buildTextReason tAlpha (trimStr qAlphaGamma) = "Partial match for \"alpha gamma\"" ∧
    containsStr (lowerStr tAlpha.trackName) (lowerStr (trimStr qAlphaGamma)) = false ∧
    containsStr (lowerStr tAlpha.artistNames) (lowerStr (trimStr qAlphaGamma)) = false := by
  have hwords : wordsOf (lowerStr (trimStr qAlphaGamma)) =
      [['a', 'l', 'p', 'h', 'a'], ['g', 'a', 'm', 'm', 'a']] := by decide
  refine ⟨?_, by decide, by decide, by decide⟩
  norm_num +decide [computeTextScore, hwords, List.filter_cons]

/-- C5 (amended): the text reason names the track name when the full query
occurs there (checked first), else the artists when it occurs there, and
otherwise falls back to a partial-match message; the slider reason cites
the feature dimension with the smallest absolute difference to the
normalized target, ties broken by first occurrence in the fixed dimension
order, displaying tempo in BPM and every other dimension as a
percentage (the display format is part of `sliderMsgFor`). -/
theorem reasons_spec :
    (∀ (t : Track) (q : List Char),
      (containsStr (lowerStr t.trackName) (lowerStr q) = true →
        buildTextReason t q =
          "Matched your search \"" ++ String.mk q ++ "\" in the track name") ∧
      (containsStr (lowerStr t.trackName) (lowerStr q) = false →
        containsStr (lowerStr t.artistNames) (lowerStr q) = true →
        buildTextReason t q = "Found \"" ++ String.mk q ++ "\" among the artists") ∧
      (containsStr (lowerStr t.trackName) (lowerStr q) = false →
        containsStr (lowerStr t.artistNames) (lowerStr q) = false →
        buildTextReason t q = "Partial match for \"" ++ String.mk q ++ "\"")) ∧
    (∀ (t : Track) (ns : SliderTarget),
      ∃ e ∈ diffEntries t ns,
        (∀ e2 ∈ diffEntries t ns, e.diff ≤ e2.diff) ∧
        (∀ e2 ∈ diffEntries t ns, e2.diff = e.diff → keyIdx e.key ≤ keyIdx e2.key) ∧
        buildSliderReason t ns = sliderMsgFor t e) := by
  constructor
  · intro t q
    refine ⟨?_, ?_, ?_⟩
    · intro h1
      unfold buildTextReason
      rw [if_pos h1]
    · intro h1 h2
      unfold buildTextReason
      rw [if_neg (by simp [h1]), if_pos h2]
    · intro h1 h2
      unfold buildTextReason
      rw [if_neg (by simp [h1]), if_neg (by simp [h2])]
  · exact buildSliderReason_spec

/-- Witness for the amended C5 at a concrete track and query. -/
theorem reasons_spec_witness :
    containsStr (lowerStr tAB.trackName) (lowerStr ['a']) = true ∧
      buildTextReason tAB ['a'] =
        "Matched your search \"" ++ String.mk ['a'] ++ "\" in the track name" :=
  ⟨by decide, (reasons_spec.1 tAB ['a']).1 (by decide)⟩

/-- C7 counterexample: a feature value outside `[0,1]` that is truthy in
JS (normalized loudness -5) is not defaulted to 0 by `setTrack`, refuting
the claim that every missing, NaN or out-of-range feature value is
defensively defaulted to 0 before use. -/
theorem viz_out_of_range_not_defaulted_cex :
    setTrackTarget vLoudTrack FeatId.loudness = -5 ∧
    setTrackTarget vLoudTrack FeatId.loudness ≠ 0 ∧
    ¬(0 ≤ setTrackTarget vLoudTrack FeatId.loudness ∧
      setTrackTarget vLoudTrack FeatId.loudness ≤ 1) := by
  have hv : setTrackTarget vLoudTrack FeatId.loudness = -5 := by
    norm_num [setTrackTarget, VizTrack.field, vLoudTrack, jsOr]
  refine ⟨hv, ?_, ?_⟩
  · rw [hv]
    norm_num
  · rw [hv]
    norm_num

/-- C7 (amended): `setTrack` defaults only JS-falsy feature values —
missing (`undefined`) and `NaN` (and literal 0) become 0 — while truthy
out-of-range values pass through unchanged and reach the drawing code:
with normalized loudness -5, a particle with a large size draw has
negative stored size, and the organic ellipse x-radius handed to
`ctx.ellipse` is negative at every tick time — an invalid drawing call,
so the visualizer can throw. -/
theorem viz_default_falsy :
    (∀ k, setTrackTarget nanTrack k = 0) ∧
    (∀ k, setTrackTarget undefTrack k = 0) ∧
    (∃ p ∈ (setTrack 100 100 vLoudTrack cexDraws VizState.init).particles,
      p.size < 0 ∧
      ∀ time : ℝ,
        ellipseRadiusX
          ((setTrack 100 100 vLoudTrack cexDraws VizState.init).features.getD dfltF)
          time p < 0) := by
  refine ⟨?_, ?_, ?_⟩
  · intro k
    cases k <;> rfl
  · intro k
    cases k <;> rfl
  · have hdance : setTrackTarget vLoudTrack FeatId.danceability = 0 := by
      norm_num [setTrackTarget, VizTrack.field, vLoudTrack, jsOr]
    have hacoust : setTrackTarget vLoudTrack FeatId.acousticness = 0 := by
      norm_num [setTrackTarget, VizTrack.field, vLoudTrack, jsOr]
    have hloud : setTrackTarget vLoudTrack FeatId.loudness = -5 := by
      norm_num [setTrackTarget, VizTrack.field, vLoudTrack, jsOr]
    refine ⟨createParticle 100 100 (setTrackTarget vLoudTrack) (cexDraws 0), ?_, ?_, ?_⟩
    · show createParticle 100 100 (setTrackTarget vLoudTrack) (cexDraws 0) ∈
        initParticles 100 100 (setTrackTarget vLoudTrack) cexDraws
      unfold initParticles
      refine List.mem_map.mpr ⟨0, ?_, rfl⟩
      rw [List.mem_range, hdance]
      norm_num [qOr]
    · show (1.5 + (cexDraws 0).rs * 3 * (0.5 + qOr (setTrackTarget vLoudTrack FeatId.loudness) 0.5) : ℚ) < 0
      rw [hloud]
      norm_num [cexDraws, qOr]
    · intro time
      have hsize : (1.5 + (cexDraws 0).rs * 3 *
          (0.5 + qOr (setTrackTarget vLoudTrack FeatId.loudness) 0.5) : ℚ) < 0 := by
        rw [hloud]
        norm_num [cexDraws, qOr]
      have hf : (setTrack 100 100 vLoudTrack cexDraws VizState.init).features.getD dfltF =
          setTrackTarget vLoudTrack := rfl
      rw [hf]
      unfold ellipseRadiusX wobble drawnSize
      rw [hdance, hacoust]
      have hcast : ((createParticle 100 100 (setTrackTarget vLoudTrack) (cexDraws 0)).size : ℝ) < 0 := by
        exact_mod_cast hsize
      push_cast
      ring_nf
      nlinarith [hcast]

/-- Iterating `lerpFeatures` from features `fA` chasing target `fB` gives
the closed-form exponential decay `lerpN`. -/
lemma lerp_iterate_closed (fA fB : Features) (parts : List Particle) :
    ∀ n : ℕ,
      lerpFeatures^[n]
          { features := some fA, targetFeatures := some fB, particles := parts } =
        { features := some fun k => lerpN (fA k) (fB k) n
          targetFeatures := some fB, particles := parts } := by
  intro n
  induction n with
  | zero =>
      simp only [Function.iterate_zero, id_eq]
      have hfa : (fun k => lerpN (fA k) (fB k) 0) = fA := by
        funext k
        simp [lerpN]
      rw [hfa]
  | succ n ih =>
      rw [Function.iterate_succ_apply', ih]
      have hstep :
          (fun k => lerpN (fA k) (fB k) n + (fB k - lerpN (fA k) (fB k) n) * 0.03) =
            fun k => lerpN (fA k) (fB k) (n + 1) := by
        funext k
        unfold lerpN
        rw [show (0.03 : ℚ) = 3 / 100 by norm_num]
        ring
      show ({ features := some (fun k => lerpN (fA k) (fB k) n +
                  (fB k - lerpN (fA k) (fB k) n) * 0.03),
              targetFeatures := some fB, particles := parts } : VizState) = _
      rw [hstep]

/-- After one tick the blended value lies strictly between start and
target. -/
lemma lerpN_one_between (a b : ℚ) (hne : a ≠ b) :
    min a b < lerpN a b 1 ∧ lerpN a b 1 < max a b := by
  rcases lt_or_gt_of_ne hne with hlt | hgt
  · rw [min_eq_left (le_of_lt hlt), max_eq_right (le_of_lt hlt)]
    unfold lerpN
    rw [pow_one]
    constructor <;> nlinarith
  · rw [min_eq_right (le_of_lt hgt), max_eq_left (le_of_lt hgt)]
    unfold lerpN
    rw [pow_one]
    constructor <;> nlinarith

/-- The blended value converges to the target: for every positive epsilon
there is a tick count after which the distance stays below it. -/
lemma lerpN_tendsto (a b : ℚ) (ε : ℚ) (hε : 0 < ε) :
    ∃ N : ℕ, ∀ n ≥ N, |lerpN a b n - b| < ε := by
  have habs : ∀ n : ℕ, |lerpN a b n - b| = |a - b| * (97 / 100 : ℚ) ^ n := by
    intro n
    unfold lerpN
    rw [show b + (a - b) * (97 / 100 : ℚ) ^ n - b = (a - b) * (97 / 100) ^ n by ring]
    rw [abs_mul, abs_pow, abs_of_pos (by norm_num : (0 : ℚ) < 97 / 100)]
  have hD0 : 0 ≤ |a - b| := abs_nonneg _
  have hεD : 0 < ε / (|a - b| + 1) := by positivity
  obtain ⟨N, hN⟩ := exists_pow_lt_of_lt_one hεD (by norm_num : (97 / 100 : ℚ) < 1)
  refine ⟨N, fun n hn => ?_⟩
  rw [habs]
  have hpow : (97 / 100 : ℚ) ^ n ≤ (97 / 100) ^ N :=
    pow_le_pow_of_le_one (by norm_num) (by norm_num) hn
  have h1 : |a - b| * (97 / 100 : ℚ) ^ n ≤ |a - b| * (97 / 100) ^ N :=
    mul_le_mul_of_nonneg_left hpow hD0
  have h2 : |a - b| * (97 / 100 : ℚ) ^ N ≤ (|a - b| + 1) * (97 / 100) ^ N := by
    apply mul_le_mul_of_nonneg_right _ (by positivity)
    linarith
  have h3 : (|a - b| + 1) * (97 / 100 : ℚ) ^ N < (|a - b| + 1) * (ε / (|a - b| + 1)) :=
    mul_lt_mul_of_pos_left hN (by linarith)
  have h4 : (|a - b| + 1) * (ε / (|a - b| + 1)) = ε := by
    field_simp
  linarith

/-- C8: after `setTrack(A)` then immediately `setTrack(B)`, `current` was
seeded equal to A's target at first initialization and is untouched by the
second call; after `n` ticks each current value follows the closed form
`B + (A - B)·0.97^n` (each tick moves 3% of the remaining gap); at the
first tick every value with distinct endpoints lies strictly between A's
and B's values; and every value converges to within any epsilon of B's. -/
theorem viz_lerp_convergence (w h : ℚ) (A B : VizTrack) (dA dB : ℕ → Rand8) :
    (setTrack w h A dA VizState.init).features = some (setTrackTarget A) ∧
    (setTrack w h B dB (setTrack w h A dA VizState.init)).features =
      some (setTrackTarget A) ∧
    (∀ n : ℕ,
      (lerpFeatures^[n] (setTrack w h B dB (setTrack w h A dA VizState.init))).features =
        some fun k => lerpN (setTrackTarget A k) (setTrackTarget B k) n) ∧
    (∀ k, setTrackTarget A k ≠ setTrackTarget B k →
      min (setTrackTarget A k) (setTrackTarget B k) <
          lerpN (setTrackTarget A k) (setTrackTarget B k) 1 ∧
        lerpN (setTrackTarget A k) (setTrackTarget B k) 1 <
          max (setTrackTarget A k) (setTrackTarget B k)) ∧
    (∀ k (ε : ℚ), 0 < ε → ∃ N : ℕ, ∀ n ≥ N,
      |lerpN (setTrackTarget A k) (setTrackTarget B k) n - setTrackTarget B k| < ε) := by
  have hst2 : setTrack w h B dB (setTrack w h A dA VizState.init) =
      { features := some (setTrackTarget A)
        targetFeatures := some (setTrackTarget B)
        particles := initParticles w h (setTrackTarget B) dB } := rfl
  refine ⟨rfl, by rw [hst2], ?_, ?_, ?_⟩
  · intro n
    rw [hst2, lerp_iterate_closed]
  · intro k hk
    exact lerpN_one_between _ _ hk
  · intro k ε hε
    exact lerpN_tendsto _ _ ε hε

/-- Witness for C8 at two concrete tracks with distinct feature values. -/
theorem viz_lerp_convergence_witness :
    (setTrackTarget undefTrack FeatId.valence ≠ setTrackTarget vHalf FeatId.valence) ∧
    (0 : ℚ) < 1 ∧
    (min (setTrackTarget undefTrack FeatId.valence) (setTrackTarget vHalf FeatId.valence) <
        lerpN (setTrackTarget undefTrack FeatId.valence) (setTrackTarget vHalf FeatId.valence) 1 ∧
      lerpN (setTrackTarget undefTrack FeatId.valence) (setTrackTarget vHalf FeatId.valence) 1 <
        max (setTrackTarget undefTrack FeatId.valence) (setTrackTarget vHalf FeatId.valence)) ∧
    (∃ N : ℕ, ∀ n ≥ N,
      |lerpN (setTrackTarget undefTrack FeatId.valence) (setTrackTarget vHalf FeatId.valence) n -
          setTrackTarget vHalf FeatId.valence| < 1) :=
  ⟨by norm_num [setTrackTarget, VizTrack.field, undefTrack, vHalf, jsOr], by norm_num,
    (viz_lerp_convergence 100 100 undefTrack vHalf cexDraws cexDraws).2.2.2.1 FeatId.valence
      (by norm_num [setTrackTarget, VizTrack.field, undefTrack, vHalf, jsOr]),
    (viz_lerp_convergence 100 100 undefTrack vHalf cexDraws cexDraws).2.2.2.2 FeatId.valence 1
      (by norm_num)⟩

/-- C9 counterexample: with target acousticness exactly 0 (JS-falsy), the
organic draw is compared against the `|| 0.3` fallback, so a particle is
organic even though its draw is not below the target's acousticness —
refuting "organic exactly when the draw is below the target's
acousticness". -/
theorem organic_zero_acousticness_cex :
    (createParticle 100 100 (setTrackTarget vLoudTrack) (cexDraws 0)).organic = true ∧
    ¬((cexDraws 0).ro < setTrackTarget vLoudTrack FeatId.acousticness) := by
  have hacoust : setTrackTarget vLoudTrack FeatId.acousticness = 0 := by
    norm_num [setTrackTarget, VizTrack.field, vLoudTrack, jsOr]
  constructor
  · show decide ((cexDraws 0).ro <
        qOr (setTrackTarget vLoudTrack FeatId.acousticness) 0.3) = true
    rw [hacoust]
    rw [decide_eq_true_eq]
    norm_num [cexDraws, qOr]
  · rw [hacoust]
    norm_num [cexDraws]

/-- C9 (amended): on every track change the particle set is regenerated
wholesale from the new target, with `floor(80 + danceability·180)`
particles; each particle's organic flag is fixed at creation by comparing
its draw against the target's acousticness with JS falsy fallback
(threshold `acousticness` when that value is non-zero, else `0.3`); a
non-organic particle is rendered as a diamond when the current
instrumentalness exceeds 0.3, else as a rounded rectangle. -/
theorem particle_regen_spec (w h : ℚ) (t : VizTrack) (draws : ℕ → Rand8)
    (st : VizState) :
    (setTrack w h t draws st).particles = initParticles w h (setTrackTarget t) draws ∧
    (setTrack w h t draws st).particles.length =
      (Int.floor ((80 : ℚ) + qOr (setTrackTarget t FeatId.danceability) 0 * 180)).toNat ∧
    (∀ i : ℕ, i < (setTrack w h t draws st).particles.length →
      ((setTrack w h t draws st).particles.getD i dfltParticle).organic =
        decide ((draws i).ro < qOr (setTrackTarget t FeatId.acousticness) 0.3)) ∧
    (setTrackTarget t FeatId.acousticness ≠ 0 →
      ∀ i : ℕ, i < (setTrack w h t draws st).particles.length →
        (((setTrack w h t draws st).particles.getD i dfltParticle).organic = true ↔
          (draws i).ro < setTrackTarget t FeatId.acousticness)) ∧
    (∀ (f : Features) (p : Particle), p.organic = false →
      renderShape f p =
        if 3 / 10 < f FeatId.instrumentalness then Shape.diamond else Shape.roundRect) := by
  have hlen : (setTrack w h t draws st).particles.length =
      (Int.floor ((80 : ℚ) + qOr (setTrackTarget t FeatId.danceability) 0 * 180)).toNat := by
    show ((List.range _).map
        (fun j => createParticle w h (setTrackTarget t) (draws j))).length = _
    rw [List.length_map, List.length_range]
  have hget : ∀ i : ℕ, i < (setTrack w h t draws st).particles.length →
      ((setTrack w h t draws st).particles.getD i dfltParticle) =
        createParticle w h (setTrackTarget t) (draws i) := by
    intro i hi
    have hi2 : i < ((List.range
        ((Int.floor ((80 : ℚ) +
          qOr (setTrackTarget t FeatId.danceability) 0 * 180)).toNat)).map
        (fun j => createParticle w h (setTrackTarget t) (draws j))).length := hi
    show ((List.range _).map
        (fun j => createParticle w h (setTrackTarget t) (draws j))).getD i dfltParticle = _
    rw [List.getD_eq_getElem _ _ hi2]
    simp
  refine ⟨rfl, hlen, ?_, ?_, ?_⟩
  · intro i hi
    rw [hget i hi]
    rfl
  · intro hnz i hi
    rw [hget i hi]
    show decide ((draws i).ro < qOr (setTrackTarget t FeatId.acousticness) 0.3) = true ↔ _
    rw [decide_eq_true_eq]
    unfold qOr
    rw [if_neg hnz]
  · intro f p hp
    simp [renderShape, hp]

/-- Witness for the amended C9 at a concrete state and particle. -/
theorem particle_regen_spec_witness :
    dfltParticle.organic = false ∧
      renderShape dfltF dfltParticle =
        (if 3 / 10 < dfltF FeatId.instrumentalness then Shape.diamond
         else Shape.roundRect) :=
  ⟨rfl,
    (particle_regen_spec 100 100 vLoudTrack cexDraws VizState.init).2.2.2.2
      dfltF dfltParticle rfl⟩

end Theorems
